import Mathlib

/-!
Verification of the documentation relevance-ranking and structured-extraction
pipeline of the integration-agent repository.

The Python sources `agent/tools/search.py`, `agent/agent.py` and
`agent/tools/parser.py` are shallowly embedded below.  Python strings are
Lean `String`s, Python floats carry only the exact decimal constants
0.05/0.1/0.2/0.4/0.6/1.0 here and are modelled as exact rationals (`ℚ`),
Python dictionaries with known key sets are structures whose fields are
`Option`-valued when a key may be absent, and BeautifulSoup element trees
are a mutually inductive tag/text tree.  All definitions are executable and
structurally recursive, so concrete documents evaluate by `rfl`/`decide`.
-/

/-! ## Python string primitives -/

/-- The whitespace characters recognised by Python's `str.strip` /
`str.split()` for the ASCII inputs that occur in this development. -/
def isSpaceChar (c : Char) : Bool :=
  c == ' ' || c == '\t' || c == '\n' || c == '\r' || c == '\x0b' || c == '\x0c'

/-- `prefixMatch pat s` : `s` starts with `pat` (on character lists). -/
def prefixMatch : List Char → List Char → Bool
  | [], _ => true
  | _ :: _, [] => false
  | a :: as, b :: bs => a == b && prefixMatch as bs

/-- `subMatch pat s` : `pat` occurs as a contiguous substring of `s`;
embeds Python's `pat in s`. -/
def subMatch (pat : List Char) : List Char → Bool
  | [] => prefixMatch pat []
  | c :: t => prefixMatch pat (c :: t) || subMatch pat t

/-- Python's `pat in s` on strings. -/
def containsSub (s pat : String) : Bool :=
  subMatch pat.data s.data

/-- Python's `s.lower()` (ASCII case folding suffices for the embedded data). -/
def lowerStr (s : String) : String :=
  String.mk (s.data.map Char.toLower)

/-- Python's `s.strip()`: drop leading and trailing whitespace. -/
def pyStrip (s : String) : String :=
  String.mk (((s.data.dropWhile isSpaceChar).reverse.dropWhile isSpaceChar).reverse)

/-- Core of Python's `s.split(' ')` (split at every single space character,
keeping empty fields). -/
def splitSpaceList : List Char → List (List Char)
  | [] => [[]]
  | c :: t =>
    match splitSpaceList t with
    | [] => [[]]
    | g :: gs => if c == ' ' then [] :: g :: gs else (c :: g) :: gs

/-- Python's `s.split(' ')`. -/
def pySplitSpace (s : String) : List String :=
  (splitSpaceList s.data).map String.mk

/-- Core of Python's argumentless `s.split()` (split on whitespace runs,
discarding empty fields); used to state the spec's reading of claim C2. -/
def splitWsAux : List Char → List Char → List (List Char)
  | [], acc => if acc.isEmpty then [] else [acc.reverse]
  | c :: t, acc =>
    if isSpaceChar c then
      (if acc.isEmpty then splitWsAux t [] else acc.reverse :: splitWsAux t [])
    else splitWsAux t (c :: acc)

/-- Python's argumentless `s.split()` (whitespace split). -/
def pySplitWs (s : String) : List String :=
  (splitWsAux s.data []).map String.mk

/-- Fuelled core of Python's `s.replace(pat, '')`: scan left to right,
deleting each non-overlapping occurrence of `pat`.  One unit of fuel is
spent per consumed character block, so `s.length` fuel always suffices. -/
def removeSubFuel (pat : List Char) : Nat → List Char → List Char
  | 0, s => s
  | _ + 1, [] => []
  | fuel + 1, c :: t =>
    if prefixMatch pat (c :: t) then removeSubFuel pat fuel (List.drop (pat.length - 1) t)
    else c :: removeSubFuel pat fuel t

/-- Python's `s.replace(pat, '')` (delete all occurrences of `pat`). -/
def pyReplaceEmpty (s pat : String) : String :=
  if pat.isEmpty then s else String.mk (removeSubFuel pat.data s.data.length s.data)

/-- The text following the first occurrence of `pat`, if any; this is the
"substring after the prefix" reading used by claims C7/C8. -/
def afterSub (pat : List Char) : List Char → Option (List Char)
  | [] => if prefixMatch pat [] then some [] else none
  | c :: t =>
    if prefixMatch pat (c :: t) then some (List.drop (pat.length - 1) t)
    else afterSub pat t

/-! ## BeautifulSoup element trees

A parsed HTML document is a sequence of nodes; an element node carries its
tag name, its list of class tokens (BeautifulSoup's multi-valued `class`
attribute) and its children.  `HNode`/`HNodeList` are mutually inductive so
that every traversal below is plain structural recursion. -/

mutual
inductive HNode : Type where
  | text : String → HNode
  | elem : String → List String → HNodeList → HNode
inductive HNodeList : Type where
  | nil : HNodeList
  | cons : HNode → HNodeList → HNodeList
end

/-- Build an `HNodeList` from a plain list (literal notation helper). -/
def nodesOf : List HNode → HNodeList
  | [] => .nil
  | n :: ns => .cons n (nodesOf ns)

mutual
/-- The raw text nodes of a subtree, in document order
(BeautifulSoup's `.strings`). -/
def HNode.strings : HNode → List String
  | .text s => [s]
  | .elem _ _ ch => HNodeList.strings ch
def HNodeList.strings : HNodeList → List String
  | .nil => []
  | .cons n ns => HNode.strings n ++ HNodeList.strings ns
end

mutual
/-- All element nodes of a subtree in preorder (document order), the node
itself included when it is an element. -/
def HNode.elemsPre : HNode → List HNode
  | .text _ => []
  | .elem t c ch => .elem t c ch :: HNodeList.elemsPre ch
def HNodeList.elemsPre : HNodeList → List HNode
  | .nil => []
  | .cons n ns => HNode.elemsPre n ++ HNodeList.elemsPre ns
end

/-- Tag name of a node (text nodes have none). -/
def HNode.tagOf : HNode → String
  | .text _ => ""
  | .elem t _ _ => t

/-- Class tokens of a node. -/
def HNode.classesOf : HNode → List String
  | .text _ => []
  | .elem _ c _ => c

/-- Children of a node. -/
def HNode.childrenOf : HNode → HNodeList
  | .text _ => .nil
  | .elem _ _ ch => ch

/-- BeautifulSoup `class_='tok'` filters: the attribute is multi-valued and
matching is membership among the class tokens. -/
def HNode.hasClassToken (n : HNode) (tok : String) : Bool :=
  n.classesOf.contains tok

/-- `.get_text()` / `.text`: concatenation of all text nodes. -/
def HNode.getText (n : HNode) : String :=
  String.join n.strings

/-- `.get_text(strip=True)`: concatenation of the individually stripped
text nodes. -/
def HNode.getTextStrip (n : HNode) : String :=
  String.join (n.strings.map pyStrip)

/-- `soup.find(...)`: first element of the document, in document order,
satisfying the filter. -/
def soupFind (doc : HNodeList) (p : HNode → Bool) : Option HNode :=
  (HNodeList.elemsPre doc).find? p

/-- `tag.find(...)`: first element among a node's descendants (the node
itself excluded) satisfying the filter. -/
def HNode.findDesc (n : HNode) (p : HNode → Bool) : Option HNode :=
  (HNodeList.elemsPre n.childrenOf).find? p

/-- BeautifulSoup's `.string`: the unique text child, descending through
unique element children; `none` whenever a node has zero or several
children. -/
def HNode.bsString : HNode → Option String
  | .text s => some s
  | .elem _ _ (.cons n .nil) => HNode.bsString n
  | .elem _ _ _ => none

/-! ## `agent/tools/parser.py` — DocumentationParser -/

/-- `Endpoint` dataclass (the fields populated by `_extract_endpoints`). -/
structure Endpoint where
  method : String
  path : String
  description : Option String
deriving DecidableEq

/-- `CodeExample` dataclass (the fields populated by `_extract_code_examples`). -/
structure CodeExample where
  language : String
  code : String
  description : Option String
deriving DecidableEq

/-- The `auth_info` dictionary built by `_extract_authentication`.  An outer
`none` means the key is absent from the dictionary; `type = some none`
means the key is present and bound to Python's `None`.  The Python key
`example` is spelled `exampleText` here. -/
structure AuthInfo where
  instructions : Option String
  type : Option (Option String)
  exampleText : Option String
deriving DecidableEq

/-- `DocumentationParser._extract_authentication`. -/
def extract_authentication (doc : HNodeList) : AuthInfo :=
  match soupFind doc (fun n => n.tagOf == "div" && n.hasClassToken "authentication") with
  | none => { instructions := none, type := none, exampleText := none }
  | some sec =>
    { instructions := some sec.getTextStrip
      type := some (if containsSub sec.getText "API Key" then some "API Key" else none)
      exampleText := (sec.findDesc (fun n => n.tagOf == "code")).map HNode.getTextStrip }

/-- `DocumentationParser._extract_endpoints`: first `div` with class token
`endpoint`, first `h3` inside it, heading text split with `split(' ')`. -/
def extract_endpoints (doc : HNodeList) : List Endpoint :=
  match soupFind doc (fun n => n.tagOf == "div" && n.hasClassToken "endpoint") with
  | none => []
  | some d =>
    match d.findDesc (fun n => n.tagOf == "h3") with
    | none => []
    | some h3 =>
      let mp := pySplitSpace h3.getTextStrip
      if 2 ≤ mp.length then
        [{ method := mp.headD ""
           path := (mp.drop 1).headD ""
           description :=
             (d.findDesc (fun n => n.tagOf == "p" && n.hasClassToken "description")).map
               HNode.getTextStrip }]
      else []

/-- `class_=lambda x: x and 'language-' in x`: some class token contains
the substring `language-`. -/
def langTokenPred (c : String) : Bool :=
  containsSub c "language-"

/-- Elements matched by `soup.find_all('pre', class_=lambda x: x and 'language-' in x)`. -/
def langPrePred (n : HNode) : Bool :=
  n.tagOf == "pre" && n.classesOf.any langTokenPred

/-- Elements matched by `block.find_previous(['p', 'h3', 'h4'])`. -/
def prevDescPred (n : HNode) : Bool :=
  n.tagOf == "p" || n.tagOf == "h3" || n.tagOf == "h4"

/-- The `CodeExample` built for one matched `pre` block, given the elements
that precede it in document order, nearest first (`find_previous` scans
that sequence).  The language is `block.get('class', [''])[0]` with every
occurrence of `language-` deleted (`str.replace`). -/
def codeExampleOf (seen : List HNode) (n : HNode) : CodeExample :=
  { language := pyReplaceEmpty (n.classesOf.headD "") "language-"
    code := n.getTextStrip
    description := (seen.find? prevDescPred).map HNode.getTextStrip }

/-- Loop of `_extract_code_examples` over the document-order element
sequence; `seen` holds the already-visited elements, nearest first. -/
def codeExamplesLoop (seen : List HNode) : List HNode → List CodeExample
  | [] => []
  | n :: rest =>
    (if langPrePred n then [codeExampleOf seen n] else [])
      ++ codeExamplesLoop (n :: seen) rest

/-- `DocumentationParser._extract_code_examples`. -/
def extract_code_examples (doc : HNodeList) : List CodeExample :=
  codeExamplesLoop [] (HNodeList.elemsPre doc)

/-- `DocumentationParser._detect_language`. -/
def detect_language (n : HNode) : String :=
  match n.classesOf.find? langTokenPred with
  | some c => pyReplaceEmpty c "language-"
  | none =>
    let content := lowerStr n.getText
    if containsSub content "import" &&
        (containsSub content "def" || containsSub content "class") then "python"
    else if containsSub content "\x7b" &&
        (containsSub content ":" || containsSub content "=") then "json"
    else if containsSub content "<" && containsSub content ">" then "xml"
    else "unknown"

/-- The record assembled by `DocumentationParser.parse_documentation`
(success path, after the HTTP fetch that is outside this scope). -/
structure ParseResult where
  title : Option String
  overview : Option String
  endpoints : List Endpoint
  authentication : AuthInfo
  examples : List CodeExample
deriving DecidableEq

/-- `DocumentationParser.parse_documentation`: note that the `overview`
field is computed inline from the first `div` with class `introduction`
only — the `_extract_overview` helper with its selector chain is not
called on this path. -/
def parse_documentation (doc : HNodeList) : ParseResult :=
  { title := (soupFind doc (fun n => n.tagOf == "title")).bind HNode.bsString
    overview :=
      (soupFind doc (fun n => n.tagOf == "div" && n.hasClassToken "introduction")).map
        (fun d => pyStrip d.getText)
    endpoints := extract_endpoints doc
    authentication := extract_authentication doc
    examples := extract_code_examples doc }

/-! ## `agent/tools/search.py` — EnhancedSearchTool -/

/-- A raw Tavily search hit as seen by `EnhancedSearchTool`: a dictionary
whose `url` / `content` keys may be absent (the code only reads them with
`result.get(key, '')`). -/
structure SearchHit where
  url : Option String
  content : Option String
deriving DecidableEq

/-- The optional `context` dictionary of `EnhancedSearchTool.search`; each
recognised key may be absent (read with `context.get(key, default)`).  A
Python `None` or empty context dictionary is modelled as an absent context
(`Option.none`) at the use sites, matching `if context:` truthiness. -/
structure SearchContext where
  service_name : Option String
  integration_type : Option String
  keywords : Option (List String)
deriving DecidableEq

/-- `EnhancedSearchTool._is_documentation_url` (the extended marker set). -/
def enhanced_is_documentation_url (url : String) : Bool :=
  ["docs.", "developer.", "api.", "developers.", "documentation.",
   "/docs/", "/api/", "/developer/"].any
    (fun ind => containsSub (lowerStr url) ind)

/-- `EnhancedSearchTool._context_based_score`: +0.2 for the service name,
+0.1 for the integration type, +0.05 per matched keyword list entry
(entries counted with multiplicity, one test per entry). -/
def context_based_score (result : SearchHit) (context : SearchContext) : ℚ :=
  let content := lowerStr (result.content.getD "")
  let s1 : ℚ := if containsSub content (lowerStr (context.service_name.getD "")) then 1/5 else 0
  let s2 : ℚ := if containsSub content (lowerStr (context.integration_type.getD "")) then 1/10 else 0
  (context.keywords.getD []).foldl
    (fun acc k => if containsSub content (lowerStr k) then acc + 1/20 else acc) (s1 + s2)

/-- `EnhancedSearchTool._calculate_relevance`: additive score, clamped with
`min(score, 1.0)`. -/
def calculate_relevance (result : SearchHit) (context : Option SearchContext) : ℚ :=
  let base : ℚ := if enhanced_is_documentation_url (result.url.getD "") then 2/5 else 0
  let ctxScore : ℚ := match context with
    | some c => context_based_score result c
    | none => 0
  let content := lowerStr (result.content.getD "")
  let c1 : ℚ := if containsSub content "api reference" || containsSub content "developer guide"
    then 1/5 else 0
  let c2 : ℚ := if containsSub content "example" || containsSub content "tutorial"
    then 1/10 else 0
  min (base + ctxScore + c1 + c2) 1

/-- One processed result of `EnhancedSearchTool._process_results` (the
metadata keys added to the raw hit; untouched pass-through keys of the raw
dictionary are not modelled). -/
structure ProcessedResult where
  url : Option String
  content : Option String
  is_documentation : Bool
  relevance_score : ℚ
deriving DecidableEq

/-- The enrichment step of `_process_results` for one raw hit. -/
def process_one (context : Option SearchContext) (r : SearchHit) : ProcessedResult :=
  { url := r.url
    content := r.content
    is_documentation := enhanced_is_documentation_url (r.url.getD "")
    relevance_score := calculate_relevance r context }

/-! ## Stable descending sort

Python's `sorted(..., key=..., reverse=True)` is a stable sort: the output
is ordered by descending key and elements with equal keys keep their input
order.  Those two properties determine the output uniquely, so the stable
insertion sort below is an exact model of it. -/

/-- Insert `x` behind every element whose score is at least `score x`
(so an element inserted later never overtakes an equal-scored one). -/
def insertDescBy {α : Type} (score : α → ℚ) (x : α) : List α → List α
  | [] => [x]
  | y :: ys => if score x < score y then y :: insertDescBy score x ys else x :: y :: ys

/-- Stable descending insertion sort, inserting input elements back to
front. -/
def sortDescBy {α : Type} (score : α → ℚ) : List α → List α
  | [] => []
  | x :: xs => insertDescBy score x (sortDescBy score xs)

/-- `EnhancedSearchTool._process_results`: enrich every raw hit, then
`sorted(..., key=lambda x: x['relevance_score'], reverse=True)`. -/
def process_results (results : List SearchHit) (context : Option SearchContext) :
    List ProcessedResult :=
  sortDescBy (fun r => r.relevance_score) (results.map (process_one context))

/-! ## `agent/agent.py` — IntegrationAgent -/

/-- `IntegrationRequest` dataclass. -/
structure IntegrationRequest where
  service_name : String
  integration_type : String
  description : String
  authentication_type : Option String := none
  specific_endpoints : Option (List String) := none
deriving DecidableEq

/-- A raw search hit consumed by `IntegrationAgent._find_documentation`;
that code indexes `result['url']` and `result['content']` directly, so both
keys are modelled as present. -/
structure RawHit where
  url : String
  content : String
deriving DecidableEq

/-- `SearchResult` dataclass of `agent.py`. -/
structure SearchResult where
  url : String
  content : String
  is_documentation : Bool
  relevance_score : ℚ
deriving DecidableEq

/-- `IntegrationAgent._is_documentation_url` (four markers only). -/
def agent_is_documentation_url (url : String) : Bool :=
  ["docs.", "developer.", "api.", "developers."].any
    (fun ind => containsSub (lowerStr url) ind)

/-- `IntegrationAgent._calculate_relevance`: +0.4 for a documentation URL,
+0.1 per keyword list entry found in the lower-cased content, clamped with
`min(relevance, 1.0)`. -/
def agent_calculate_relevance (url content0 : String) (request : IntegrationRequest) : ℚ :=
  let content := lowerStr content0
  let base : ℚ := if agent_is_documentation_url url then 2/5 else 0
  let keywords := [lowerStr request.service_name, lowerStr request.integration_type,
    "api", "integration", "documentation", "guide", "reference"]
  min (keywords.foldl (fun acc kw => if containsSub content kw then acc + 1/10 else acc) base) 1

/-- The `SearchResult` materialised by `_find_documentation` for one raw hit. -/
def mkSearchResult (h : RawHit) (request : IntegrationRequest) : SearchResult :=
  { url := h.url
    content := h.content
    is_documentation := agent_is_documentation_url h.url
    relevance_score := agent_calculate_relevance h.url h.content request }

/-- The per-query loop body of `IntegrationAgent._find_documentation`:
materialise a hit exactly when `relevance > 0.6`. -/
def find_documentation_hits (hits : List RawHit) (request : IntegrationRequest) :
    List SearchResult :=
  hits.filterMap (fun h =>
    if 3/5 < agent_calculate_relevance h.url h.content request
    then some (mkSearchResult h request) else none)

/-- The three search queries issued by `_find_documentation`, in order. -/
def search_queries (request : IntegrationRequest) : List String :=
  [request.service_name ++ " " ++ request.integration_type ++ " documentation",
   request.service_name ++ " API reference " ++ request.integration_type,
   request.service_name ++ " developer guides " ++ request.integration_type]

/-- The accumulator of `_find_documentation` before sorting: queries are
iterated in order, each query's hits in the order the search capability
returned them (`searchFn` stands for the awaited external search call). -/
def accum_results (searchFn : String → List RawHit) (request : IntegrationRequest) :
    List SearchResult :=
  ((search_queries request).map (fun q => find_documentation_hits (searchFn q) request)).flatten

/-- `IntegrationAgent._find_documentation`: accumulate, then
`sorted(..., key=lambda x: x.relevance_score, reverse=True)`. -/
def find_documentation (searchFn : String → List RawHit) (request : IntegrationRequest) :
    List SearchResult :=
  sortDescBy (fun r => r.relevance_score) (accum_results searchFn request)

/-! ## Concrete documents and hits used by the claims -/

/-- The endpoint document of claim C2's concrete scenario. -/
def docC2 : HNodeList := nodesOf [
  .elem "div" ["endpoint"] (nodesOf [
    .elem "h3" [] (nodesOf [.text "GET /api/v1/users"]),
    .elem "p" ["description"] (nodesOf [.text "List all users"])])]

/-- The endpoint `div` inside `docC2`. -/
def divC2 : HNode :=
  .elem "div" ["endpoint"] (nodesOf [
    .elem "h3" [] (nodesOf [.text "GET /api/v1/users"]),
    .elem "p" ["description"] (nodesOf [.text "List all users"])])

/-- The heading inside `docC2`. -/
def h3C2 : HNode := .elem "h3" [] (nodesOf [.text "GET /api/v1/users"])

/-- An endpoint document whose heading separates method and path with a
tab, i.e. with whitespace that is not the space character. -/
def docTab : HNodeList := nodesOf [
  .elem "div" ["endpoint"] (nodesOf [
    .elem "h3" [] (nodesOf [.text "GET\t/api/v1/users"])])]

/-- The endpoint document of claim C9's single-token scenario. -/
def docSingleToken : HNodeList := nodesOf [
  .elem "div" ["endpoint"] (nodesOf [
    .elem "h3" [] (nodesOf [.text "UsersEndpoint"])])]

/-- The code-example document of claim C7's concrete scenario. -/
def docC7 : HNodeList := nodesOf [
  .elem "h3" [] (nodesOf [.text "Fetch Users"]),
  .elem "pre" ["language-python"] (nodesOf [.text "import requests"])]

/-- A code-example document whose `pre` block's first class token is not
the one containing `language-`, and whose preceding heading is an `h2`. -/
def docC7x : HNodeList := nodesOf [
  .elem "h2" [] (nodesOf [.text "Fetch Users"]),
  .elem "pre" ["highlight", "language-python"] (nodesOf [.text "import requests"])]

/-- Claim C8's no-class XML-looking code container. -/
def nodeXml : HNode := .elem "code" [] (nodesOf [.text "<user><name>x</name></user>"])

/-- Claim C8's no-class JSON-looking code container. -/
def nodeJson : HNode := .elem "code" [] (nodesOf [.text "\x7b \"key\": \"value\" \x7d"])

/-- A Python-looking code container without a language class. -/
def nodePy : HNode := .elem "code" [] (nodesOf [.text "import requests\ndef f(): pass"])

/-- A code container whose only class token contains `language-` mid-token. -/
def nodeTokX : HNode := .elem "code" ["x-language-py"] (nodesOf [.text "zzz"])

/-- An authentication section that does not mention the phrase `API Key`. -/
def docAuthNoKey : HNodeList := nodesOf [
  .elem "div" ["authentication"] (nodesOf [.text "Use OAuth tokens"])]

/-- An authentication section that does mention `API Key` and carries a
code element. -/
def docAuthKey : HNodeList := nodesOf [
  .elem "div" ["authentication"] (nodesOf [.text "Use API Key authentication",
    .elem "code" [] (nodesOf [.text " X-Api-Key: abc "])])]

/-- A document with an element of class `overview` but none of class
`introduction`. -/
def docOv : HNodeList := nodesOf [.elem "div" ["overview"] (nodesOf [.text "Ov"])]

/-- A document with both an `introduction` and an `overview` element. -/
def docIntro : HNodeList := nodesOf [
  .elem "div" ["introduction"] (nodesOf [.text "  Intro text "]),
  .elem "div" ["overview"] (nodesOf [.text "Ov"])]

/-- A concrete integration request. -/
def req0 : IntegrationRequest :=
  { service_name := "svc", integration_type := "rest", description := "d" }

/-- A non-documentation hit matching exactly six of `req0`'s seven scoring
keywords: its relevance score under `req0` is exactly 0.6. -/
def hit60 : RawHit :=
  { url := "https://example.com/x"
    content := "svc rest api integration documentation guide" }

/-- The same hit with the seventh keyword added: score 0.7. -/
def hit70 : RawHit :=
  { url := "https://example.com/x"
    content := "svc rest api integration documentation guide reference" }

/-! ## Helper lemmas -/

/-- A fold that conditionally adds a fixed non-negative step stays
non-negative. -/
lemma foldl_step_nonneg {β : Type} (f : β → Bool) (step : ℚ) (hstep : 0 ≤ step)
    (l : List β) :
    ∀ init : ℚ, 0 ≤ init →
      0 ≤ l.foldl (fun acc k => if f k then acc + step else acc) init := by
  induction l with
  | nil => intro init h; simpa using h
  | cons k t ih =>
    intro init h
    simp only [List.foldl_cons]
    apply ih
    split_ifs
    · exact add_nonneg h hstep
    · exact h

/-- The context-based score of the enhanced scorer is non-negative. -/
lemma context_based_score_nonneg (r : SearchHit) (c : SearchContext) :
    0 ≤ context_based_score r c := by
  unfold context_based_score
  apply foldl_step_nonneg
  · norm_num
  · apply add_nonneg <;> split_ifs <;> norm_num

/-- C1: every relevance score of the enhanced-search scorer and of the
agent's keyword scorer lies in the interval [0, 1]: all contributions are
non-negative and the sum is clamped with `min(sum, 1.0)`. -/
theorem c1_relevance_score_bounded :
    (∀ (result : SearchHit) (context : Option SearchContext),
       0 ≤ calculate_relevance result context ∧ calculate_relevance result context ≤ 1) ∧
    (∀ (url content : String) (request : IntegrationRequest),
       0 ≤ agent_calculate_relevance url content request ∧
         agent_calculate_relevance url content request ≤ 1) := by
  constructor
  · intro result context
    unfold calculate_relevance
    refine ⟨le_min ?_ zero_le_one, min_le_right _ _⟩
    have hbase : (0:ℚ) ≤
        (if enhanced_is_documentation_url (result.url.getD "") then (2:ℚ)/5 else 0) := by
      split_ifs <;> norm_num
    have hctx : (0:ℚ) ≤
        (match context with
          | some c => context_based_score result c
          | none => 0) := by
      cases context with
      | none => norm_num
      | some c => exact context_based_score_nonneg result c
    have hc1 : (0:ℚ) ≤
        (if containsSub (lowerStr (result.content.getD "")) "api reference" ||
            containsSub (lowerStr (result.content.getD "")) "developer guide"
         then (1:ℚ)/5 else 0) := by
      split_ifs <;> norm_num
    have hc2 : (0:ℚ) ≤
        (if containsSub (lowerStr (result.content.getD "")) "example" ||
            containsSub (lowerStr (result.content.getD "")) "tutorial"
         then (1:ℚ)/10 else 0) := by
      split_ifs <;> norm_num
    exact add_nonneg (add_nonneg (add_nonneg hbase hctx) hc1) hc2
  · intro url content request
    unfold agent_calculate_relevance
    refine ⟨le_min ?_ zero_le_one, min_le_right _ _⟩
    apply foldl_step_nonneg
    · norm_num
    · split_ifs <;> norm_num

/-- Membership in a stable descending insertion. -/
lemma mem_insertDescBy {α : Type} (score : α → ℚ) (x : α) (l : List α) (a : α) :
    a ∈ insertDescBy score x l ↔ a = x ∨ a ∈ l := by
  induction l with
  | nil => simp [insertDescBy]
  | cons y ys ih =>
    unfold insertDescBy
    split_ifs with h
    · simp only [List.mem_cons, ih]
      tauto
    · simp only [List.mem_cons]

/-- Inserting into a descending-sorted list keeps it descending-sorted. -/
lemma pairwise_insertDescBy {α : Type} (score : α → ℚ) (x : α) (l : List α)
    (hl : l.Pairwise (fun a b => score b ≤ score a)) :
    (insertDescBy score x l).Pairwise (fun a b => score b ≤ score a) := by
  induction l with
  | nil => simp [insertDescBy]
  | cons y ys ih =>
    rw [List.pairwise_cons] at hl
    unfold insertDescBy
    split_ifs with h
    · rw [List.pairwise_cons]
      constructor
      · intro a ha
        rcases (mem_insertDescBy score x ys a).mp ha with rfl | ha
        · exact le_of_lt h
        · exact hl.1 a ha
      · exact ih hl.2
    · rw [List.pairwise_cons]
      constructor
      · intro a ha
        rcases List.mem_cons.mp ha with rfl | ha
        · exact le_of_not_lt h
        · exact le_trans (hl.1 a ha) (le_of_not_lt h)
      · exact List.pairwise_cons.mpr hl
  
/-- The stable descending sort yields a descending-sorted list. -/
lemma pairwise_sortDescBy {α : Type} (score : α → ℚ) (l : List α) :
    (sortDescBy score l).Pairwise (fun a b => score b ≤ score a) := by
  induction l with
  | nil => simp [sortDescBy]
  | cons x xs ih => exact pairwise_insertDescBy score x _ ih

/-- Filtering one score level commutes with a stable descending insertion:
the inserted element never passes an equal-scored element. -/
lemma filter_insertDescBy {α : Type} (score : α → ℚ) (s : ℚ) (x : α) (l : List α) :
    (insertDescBy score x l).filter (fun r => decide (score r = s)) =
      (x :: l).filter (fun r => decide (score r = s)) := by
  induction l with
  | nil => rfl
  | cons y ys ih =>
    unfold insertDescBy
    split_ifs with h
    · by_cases hy : score y = s
      · have hx : ¬ score x = s := by
          intro hx
          rw [hx] at h
          rw [hy] at h
          exact lt_irrefl s h
        simp [List.filter_cons, hy, hx, ih]
      · simp [List.filter_cons, hy, ih]
    · rfl

/-- Filtering one score level commutes with the stable descending sort:
equal-scored elements appear in their input order. -/
lemma filter_sortDescBy {α : Type} (score : α → ℚ) (s : ℚ) (l : List α) :
    (sortDescBy score l).filter (fun r => decide (score r = s)) =
      l.filter (fun r => decide (score r = s)) := by
  induction l with
  | nil => rfl
  | cons x xs ih =>
    unfold sortDescBy
    rw [filter_insertDescBy]
    simp only [List.filter_cons]
    rw [ih]

/-- C4: for every assignment of raw hits to queries, the ranker's output is
sorted by `relevance_score` in descending order, and within each score
level the output keeps the order of the accumulator built by iterating
queries in order and each query's hits in returned order (stable sort);
likewise for the enhanced tool's `_process_results` over its input hits. -/
theorem c4_ranking_sorted_and_stable :
    (∀ (searchFn : String → List RawHit) (request : IntegrationRequest),
       (find_documentation searchFn request).Pairwise
         (fun a b => b.relevance_score ≤ a.relevance_score) ∧
       ∀ s : ℚ,
         (find_documentation searchFn request).filter
             (fun r => decide (r.relevance_score = s)) =
           (accum_results searchFn request).filter
             (fun r => decide (r.relevance_score = s))) ∧
    (∀ (results : List SearchHit) (context : Option SearchContext),
       (process_results results context).Pairwise
         (fun a b => b.relevance_score ≤ a.relevance_score) ∧
       ∀ s : ℚ,
         (process_results results context).filter
             (fun r => decide (r.relevance_score = s)) =
           (results.map (process_one context)).filter
             (fun r => decide (r.relevance_score = s))) := by
  constructor
  · intro searchFn request
    exact ⟨pairwise_sortDescBy _ _, fun s => filter_sortDescBy _ s _⟩
  · intro results context
    exact ⟨pairwise_sortDescBy _ _, fun s => filter_sortDescBy _ s _⟩

/-- C3: a raw hit is materialised as a `SearchResult` by the ranker's
filter exactly when its relevance score strictly exceeds 0.6; `hit60`
scores exactly 0.6 under `req0` and is excluded, `hit70` scores 0.7 and is
included, and any score of 0.61 would pass the strict threshold. -/
theorem c3_threshold_strict :
    (∀ (request : IntegrationRequest) (hits : List RawHit) (r : SearchResult),
       r ∈ find_documentation_hits hits request ↔
         ∃ h, h ∈ hits ∧ r = mkSearchResult h request ∧
           3/5 < agent_calculate_relevance h.url h.content request) ∧
    (agent_calculate_relevance hit60.url hit60.content req0 = 3/5 ∧
       find_documentation_hits [hit60] req0 = []) ∧
    (agent_calculate_relevance hit70.url hit70.content req0 = 7/10 ∧
       find_documentation_hits [hit70] req0 = [mkSearchResult hit70 req0]) ∧
    ((3:ℚ)/5 < 61/100) := by
  have h60 : agent_calculate_relevance hit60.url hit60.content req0 = 3/5 := by
    simp +decide only [agent_calculate_relevance, agent_is_documentation_url, hit60, req0,
      List.foldl, List.any]
    norm_num [min_def]
  have h70 : agent_calculate_relevance hit70.url hit70.content req0 = 7/10 := by
    simp +decide only [agent_calculate_relevance, agent_is_documentation_url, hit70, req0,
      List.foldl, List.any]
    norm_num [min_def]
  have hex : find_documentation_hits [hit60] req0 = [] := by
    simp only [find_documentation_hits, List.filterMap_cons, List.filterMap_nil, h60]
    norm_num
  have hinc : find_documentation_hits [hit70] req0 = [mkSearchResult hit70 req0] := by
    simp only [find_documentation_hits, List.filterMap_cons, List.filterMap_nil, h70]
    norm_num
  refine ⟨?_, ⟨h60, hex⟩, ⟨h70, hinc⟩, by norm_num⟩
  intro request hits r
  unfold find_documentation_hits
  rw [List.mem_filterMap]
  constructor
  · rintro ⟨h, hm, hf⟩
    by_cases hrel : 3/5 < agent_calculate_relevance h.url h.content request
    · rw [if_pos hrel] at hf
      exact ⟨h, hm, (Option.some_inj.mp hf).symm, hrel⟩
    · rw [if_neg hrel] at hf
      exact absurd hf (Option.some_ne_none _).symm
  · rintro ⟨h, hm, rfl, hrel⟩
    exact ⟨h, hm, by rw [if_pos hrel]⟩

/-- The enhanced hit with every optional field filled by the code's
default (`''` for strings, `[]` for the keyword list). -/
def fillHit (r : SearchHit) : SearchHit :=
  { url := some (r.url.getD ""), content := some (r.content.getD "") }

/-- The context with every optional field filled by the code's default. -/
def fillContext (c : SearchContext) : SearchContext :=
  { service_name := some (c.service_name.getD "")
    integration_type := some (c.integration_type.getD "")
    keywords := some (c.keywords.getD []) }

/-- C10: the enhanced scorer is total over partial inputs — it reads every
dictionary key with `get(key, default)`, so it returns the same score as on
the hit/context with the missing fields replaced by the empty string or
empty list (and an absent context simply skips the context-based term). -/
theorem c10_scorer_total_on_partial_inputs :
    ∀ (result : SearchHit) (context : Option SearchContext),
      calculate_relevance result context =
        calculate_relevance (fillHit result) (context.map fillContext) := by
  intro result context
  obtain ⟨u, ct⟩ := result
  cases context with
  | none => cases u <;> cases ct <;> rfl
  | some c =>
    obtain ⟨sn, it, kw⟩ := c
    cases u <;> cases ct <;> cases sn <;> cases it <;> cases kw <;> rfl

/-- The endpoint `div` inside `docTab`. -/
def divTab : HNode :=
  .elem "div" ["endpoint"] (nodesOf [
    .elem "h3" [] (nodesOf [.text "GET\t/api/v1/users"])])

/-- The heading inside `docTab`. -/
def h3Tab : HNode := .elem "h3" [] (nodesOf [.text "GET\t/api/v1/users"])

/-- The `introduction` element inside `docIntro`. -/
def introDiv : HNode := .elem "div" ["introduction"] (nodesOf [.text "  Intro text "])

/-- The `authentication` section inside `docAuthKey`. -/
def secAuthKey : HNode :=
  .elem "div" ["authentication"] (nodesOf [.text "Use API Key authentication",
    .elem "code" [] (nodesOf [.text " X-Api-Key: abc "])])

/-- C2 fails as stated: `docTab`'s endpoint container holds a level-3
heading whose text splits on whitespace into the two tokens `GET` and
`/api/v1/users`, so the claim demands exactly one Endpoint, but the code
splits on the space character only (`split(' ')`) and produces none. -/
theorem c2_counterexample :
    soupFind docTab (fun n => n.tagOf == "div" && n.hasClassToken "endpoint") = some divTab ∧
    HNode.findDesc divTab (fun n => n.tagOf == "h3") = some h3Tab ∧
    pySplitWs h3Tab.getTextStrip = ["GET", "/api/v1/users"] ∧
    extract_endpoints docTab = [] :=
  ⟨rfl, rfl, by decide, by decide⟩

/-- C2 (amended): the heading text is split on the single space character
(Python `split(' ')`), not on general whitespace; with at least two
resulting fields, exactly one Endpoint is produced from the first two
fields plus the optional `description` paragraph, and the claim's concrete
document yields exactly its stated Endpoint. -/
theorem c2_endpoint_space_split :
    (∀ (doc : HNodeList) (d h3 : HNode),
       soupFind doc (fun n => n.tagOf == "div" && n.hasClassToken "endpoint") = some d →
       HNode.findDesc d (fun n => n.tagOf == "h3") = some h3 →
       extract_endpoints doc =
         (if 2 ≤ (pySplitSpace h3.getTextStrip).length then
            [{ method := (pySplitSpace h3.getTextStrip).headD ""
               path := ((pySplitSpace h3.getTextStrip).drop 1).headD ""
               description :=
                 (d.findDesc (fun n => n.tagOf == "p" && n.hasClassToken "description")).map
                   HNode.getTextStrip }]
          else [])) ∧
    extract_endpoints docC2 =
      [{ method := "GET", path := "/api/v1/users", description := some "List all users" }] := by
  constructor
  · intro doc d h3 hd hh
    unfold extract_endpoints
    rw [hd]
    dsimp only
    rw [hh]
  · decide

/-- Witness for the amended C2 theorem at the claim's concrete document. -/
theorem c2_witness :
    extract_endpoints docC2 =
      (if 2 ≤ (pySplitSpace h3C2.getTextStrip).length then
         [{ method := (pySplitSpace h3C2.getTextStrip).headD ""
            path := ((pySplitSpace h3C2.getTextStrip).drop 1).headD ""
            description :=
              (divC2.findDesc (fun n => n.tagOf == "p" && n.hasClassToken "description")).map
                HNode.getTextStrip }]
       else []) :=
  c2_endpoint_space_split.1 docC2 divC2 h3C2 rfl rfl

/-- C9: the endpoint extractor returns at most one Endpoint, every
produced Endpoint takes its method and path from the first two fields of
an actual two-or-more-field heading split, and a single-token heading
yields the empty list (no error, no partial record). -/
theorem c9_endpoint_invariants :
    (∀ doc : HNodeList, (extract_endpoints doc).length ≤ 1) ∧
    (∀ (doc : HNodeList) (e : Endpoint), e ∈ extract_endpoints doc →
       ∃ t : String, 2 ≤ (pySplitSpace t).length ∧
         e.method = (pySplitSpace t).headD "" ∧
         e.path = ((pySplitSpace t).drop 1).headD "") ∧
    extract_endpoints docSingleToken = [] := by
  refine ⟨?_, ?_, by decide⟩
  · intro doc
    unfold extract_endpoints
    split
    · simp
    · split
      · simp
      · dsimp only
        split <;> simp
  · intro doc e he
    unfold extract_endpoints at he
    cases hfind : soupFind doc (fun n => n.tagOf == "div" && n.hasClassToken "endpoint") with
    | none =>
      rw [hfind] at he
      simp at he
    | some d =>
      rw [hfind] at he
      dsimp only at he
      cases hdesc : HNode.findDesc d (fun n => n.tagOf == "h3") with
      | none =>
        rw [hdesc] at he
        simp at he
      | some h3 =>
        rw [hdesc] at he
        dsimp only at he
        by_cases hlen : 2 ≤ (pySplitSpace h3.getTextStrip).length
        · rw [if_pos hlen] at he
          rcases List.mem_singleton.mp he with rfl
          exact ⟨h3.getTextStrip, hlen, rfl, rfl⟩
        · rw [if_neg hlen] at he
          simp at he

/-- The Endpoint extracted from `docC2`. -/
def epC2 : Endpoint :=
  { method := "GET", path := "/api/v1/users", description := some "List all users" }

/-- Witness for C9's membership clause at the concrete Endpoint extracted
from `docC2`. -/
theorem c9_witness :
    ∃ t : String, 2 ≤ (pySplitSpace t).length ∧
      epC2.method = (pySplitSpace t).headD "" ∧
      epC2.path = ((pySplitSpace t).drop 1).headD "" :=
  c9_endpoint_invariants.2.1 docC2 epC2 (by decide)

/-- C5 fails as stated: `docOv` contains an element with class `overview`
(trimmed text `Ov`) and no `introduction`, so the claimed fallback chain
demands `overview = "Ov"`, but `parse_documentation` consults only the
first `div` with class `introduction` and returns an absent overview. -/
theorem c5_counterexample :
    (soupFind docOv (fun n => n.hasClassToken "overview")).map (fun d => pyStrip d.getText) =
      some "Ov" ∧
    soupFind docOv (fun n => n.tagOf == "div" && n.hasClassToken "introduction") = none ∧
    (parse_documentation docOv).overview = none :=
  ⟨rfl, rfl, by decide⟩

/-- C5 (amended): the `overview` field of the parse result is the trimmed
text of the first `div` with class `introduction`, and it is absent exactly
when no such `div` exists — the class-`overview` / id-`overview` / main-
section fallbacks live only in the uncalled `_extract_overview` helper. -/
theorem c5_overview_introduction_only :
    (∀ (doc : HNodeList) (d : HNode),
       soupFind doc (fun n => n.tagOf == "div" && n.hasClassToken "introduction") = some d →
       (parse_documentation doc).overview = some (pyStrip d.getText)) ∧
    (∀ doc : HNodeList,
       soupFind doc (fun n => n.tagOf == "div" && n.hasClassToken "introduction") = none →
       (parse_documentation doc).overview = none) ∧
    (parse_documentation docIntro).overview = some "Intro text" ∧
    (parse_documentation docOv).overview = none := by
  refine ⟨?_, ?_, by decide, by decide⟩
  · intro doc d hd
    show (soupFind doc (fun n => n.tagOf == "div" && n.hasClassToken "introduction")).map
      (fun d => pyStrip d.getText) = _
    rw [hd]
    rfl
  · intro doc hd
    show (soupFind doc (fun n => n.tagOf == "div" && n.hasClassToken "introduction")).map
      (fun d => pyStrip d.getText) = _
    rw [hd]
    rfl

/-- Witness for the amended C5 theorem at `docIntro`. -/
theorem c5_witness :
    (parse_documentation docIntro).overview = some (pyStrip introDiv.getText) :=
  c5_overview_introduction_only.1 docIntro introDiv rfl

/-- C6 fails as stated: `docAuthNoKey`'s authentication section lacks the
phrase `API Key`, and the claim demands that the `type` key be absent, but
the code binds the key to Python's `None` (`some none` here), so the key
is present with a null value. -/
theorem c6_counterexample :
    containsSub (HNode.getText secAuthKey) "API Key" = true ∧
    extract_authentication docAuthNoKey =
      { instructions := some "Use OAuth tokens", type := some none, exampleText := none } ∧
    (extract_authentication docAuthNoKey).type ≠ none :=
  ⟨by decide, by decide, by decide⟩

/-- C6 (amended): whenever an authentication section exists, the returned
mapping always carries a `type` key — bound to `API Key` when that exact
phrase occurs in the section's raw text and to a null value otherwise. -/
theorem c6_auth_type_null_not_absent :
    (∀ (doc : HNodeList) (sec : HNode),
       soupFind doc (fun n => n.tagOf == "div" && n.hasClassToken "authentication") = some sec →
       (extract_authentication doc).type =
         some (if containsSub sec.getText "API Key" then some "API Key" else none)) ∧
    (extract_authentication docAuthKey).type = some (some "API Key") ∧
    (extract_authentication docAuthNoKey).type = some none := by
  refine ⟨?_, by decide, by decide⟩
  intro doc sec h
  unfold extract_authentication
  rw [h]

/-- Witness for the amended C6 theorem at `docAuthKey`. -/
theorem c6_witness :
    (extract_authentication docAuthKey).type =
      some (if containsSub secAuthKey.getText "API Key" then some "API Key" else none) :=
  c6_auth_type_null_not_absent.1 docAuthKey secAuthKey rfl

/-- The amended-claim formulation of the code-example extraction: walk the
document-order element sequence with explicit positions; for each `pre`
element having a class token containing `language-`, emit language (first
class token with `language-` deleted), trimmed code text, and the trimmed
text of the nearest preceding `p`/`h3`/`h4` element. -/
def code_examples_amended_spec (doc : HNodeList) : List CodeExample :=
  let pre := HNodeList.elemsPre doc
  pre.enum.filterMap (fun p =>
    if langPrePred p.2 then
      some { language := pyReplaceEmpty (p.2.classesOf.headD "") "language-"
             code := p.2.getTextStrip
             description :=
               (((pre.take p.1).reverse).find? prevDescPred).map HNode.getTextStrip }
    else none)

/-- The backward-scan loop of `_extract_code_examples` agrees with the
positional nearest-preceding-element formulation: at position `i` of the
element sequence the elements already seen are exactly the reversed prefix
of length `i`, extended with whatever preceded the sequence itself. -/
lemma codeExamplesLoop_enumFrom (l : List HNode) :
    ∀ (k : Nat) (seen : List HNode),
      codeExamplesLoop seen l =
        (List.enumFrom k l).filterMap (fun p =>
          if langPrePred p.2 then
            some { language := pyReplaceEmpty (p.2.classesOf.headD "") "language-"
                   code := p.2.getTextStrip
                   description :=
                     (((l.take (p.1 - k)).reverse ++ seen).find? prevDescPred).map
                       HNode.getTextStrip }
          else none) := by
  induction l with
  | nil => intro k seen; rfl
  | cons n rest ih =>
    intro k seen
    rw [codeExamplesLoop, ih (k + 1) (n :: seen), List.enumFrom_cons, List.filterMap_cons]
    have htail :
        (List.enumFrom (k + 1) rest).filterMap (fun p =>
          if langPrePred p.2 then
            some (CodeExample.mk (pyReplaceEmpty (p.2.classesOf.headD "") "language-")
              p.2.getTextStrip
              ((((rest.take (p.1 - (k + 1))).reverse ++ (n :: seen)).find?
                prevDescPred).map HNode.getTextStrip))
          else none) =
        (List.enumFrom (k + 1) rest).filterMap (fun p =>
          if langPrePred p.2 then
            some (CodeExample.mk (pyReplaceEmpty (p.2.classesOf.headD "") "language-")
              p.2.getTextStrip
              (((((n :: rest).take (p.1 - k)).reverse ++ seen).find?
                prevDescPred).map HNode.getTextStrip))
          else none) := by
      apply List.filterMap_congr
      rw [List.forall_mem_enumFrom]
      intro i hi
      have h1 : k + 1 + i - k = i + 1 := by omega
      have h2 : k + 1 + i - (k + 1) = i := by omega
      simp only [h1, h2, List.take_succ_cons, List.reverse_cons, List.append_assoc,
        List.singleton_append]
    rw [htail]
    dsimp only
    simp only [Nat.sub_self, List.take_zero, List.reverse_nil, List.nil_append]
    by_cases hn : langPrePred n <;> simp [hn, codeExampleOf]

/-- C7 (amended): the extractor finds every `pre` container that has a
class token containing `language-`; the language is the container's first
class token with the `language-` occurrences deleted (not necessarily the
matching token), the code is the trimmed text, and the description is the
trimmed text of the nearest preceding `p`, `h3` or `h4` element in
document order (absent if none); the claim's concrete `h3` + single-class
scenario yields its stated CodeExample. -/
theorem c7_code_examples_characterised :
    (∀ doc : HNodeList, extract_code_examples doc = code_examples_amended_spec doc) ∧
    extract_code_examples docC7 =
      [{ language := "python", code := "import requests",
         description := some "Fetch Users" }] := by
  constructor
  · intro doc
    unfold extract_code_examples code_examples_amended_spec
    rw [codeExamplesLoop_enumFrom (HNodeList.elemsPre doc) 0 []]
    show _ = (List.enumFrom 0 (HNodeList.elemsPre doc)).filterMap _
    apply List.filterMap_congr
    intro p _
    simp
  · decide

/-- C7 fails as stated: in `docC7x` the matching class token
`language-python` is the second token, and the nearest preceding heading is
an `h2`; the claim demands `CodeExample{python, import requests, Fetch
Users}`, but the code takes the first class token (yielding `highlight`)
and scans only for `p`/`h3`/`h4` (yielding no description). -/
theorem c7_counterexample :
    extract_code_examples docC7x =
      [{ language := "highlight", code := "import requests", description := none }] ∧
    ((nodesOf [.elem "h2" [] (nodesOf [.text "Fetch Users"]),
        .elem "pre" ["highlight", "language-python"]
          (nodesOf [.text "import requests"])]) = docC7x) ∧
    (afterSub "language-".data "language-python".data).map String.mk = some "python" ∧
    ({ language := "highlight", code := "import requests", description := none } : CodeExample) ≠
      { language := "python", code := "import requests", description := some "Fetch Users" } :=
  ⟨by decide, rfl, by decide, by decide⟩

/-- C8 fails as stated: for a container whose only class token is
`x-language-py`, the claim demands the substring after the `language-`
prefix (`py`), but the code returns the token with the occurrence of
`language-` deleted (`x-py`). -/
theorem c8_counterexample :
    HNode.classesOf nodeTokX = ["x-language-py"] ∧
    (afterSub "language-".data "x-language-py".data).map String.mk = some "py" ∧
    detect_language nodeTokX = "x-py" ∧
    ("x-py" : String) ≠ "py" :=
  ⟨rfl, by decide, by decide, by decide⟩

/-- C8 (amended): `_detect_language` always returns a string, trying in
order: (1) the first class token containing `language-`, returned with all
occurrences of `language-` deleted; (2) the lower-cased text heuristics
for python, json, xml exactly as claimed; (3) the fallback `unknown`; the
claim's concrete xml and json containers classify as claimed. -/
theorem c8_detect_language_priority :
    (∀ (n : HNode) (c : String), n.classesOf.find? langTokenPred = some c →
       detect_language n = pyReplaceEmpty c "language-") ∧
    (∀ n : HNode, n.classesOf.find? langTokenPred = none →
       detect_language n =
         (if containsSub (lowerStr n.getText) "import" &&
             (containsSub (lowerStr n.getText) "def" ||
              containsSub (lowerStr n.getText) "class") then "python"
          else if containsSub (lowerStr n.getText) "\x7b" &&
              (containsSub (lowerStr n.getText) ":" ||
               containsSub (lowerStr n.getText) "=") then "json"
          else if containsSub (lowerStr n.getText) "<" &&
              containsSub (lowerStr n.getText) ">" then "xml"
          else "unknown")) ∧
    detect_language nodeXml = "xml" ∧
    detect_language nodeJson = "json" ∧
    detect_language nodePy = "python" := by
  refine ⟨?_, ?_, by decide, by decide, by decide⟩
  · intro n c h
    unfold detect_language
    rw [h]
  · intro n h
    unfold detect_language
    rw [h]

/-- Witness for the amended C8 theorem: the class branch at `nodeTokX` and
the fallback branch at `nodeXml`. -/
theorem c8_witness :
    detect_language nodeTokX = pyReplaceEmpty "x-language-py" "language-" ∧
    detect_language nodeXml =
      (if containsSub (lowerStr nodeXml.getText) "import" &&
          (containsSub (lowerStr nodeXml.getText) "def" ||
           containsSub (lowerStr nodeXml.getText) "class") then "python"
       else if containsSub (lowerStr nodeXml.getText) "\x7b" &&
           (containsSub (lowerStr nodeXml.getText) ":" ||
            containsSub (lowerStr nodeXml.getText) "=") then "json"
       else if containsSub (lowerStr nodeXml.getText) "<" &&
           containsSub (lowerStr nodeXml.getText) ">" then "xml"
       else "unknown") :=
  ⟨c8_detect_language_priority.1 nodeTokX "x-language-py" rfl,
   c8_detect_language_priority.2.1 nodeXml rfl⟩
